import Mathlib

/-!
Verification of the FlowFi payment-streaming contract
(`contracts/stream_contract/src/lib.rs`) against its specification.

The contract code is embedded shallowly: Soroban's `i128` amounts become
`Int` with the saturating / checked operations written out against the
explicit `i128` bounds, `u64` timestamps become `Nat` (whose truncated
subtraction is exactly `u64::saturating_sub`), addresses become `Nat`
atoms, persistent storage becomes an explicit `State` record threaded
through the operations, and each external `token.transfer` call becomes an
entry appended to a transfer log that every operation returns alongside
its `Result` and the updated state.
-/

deriving instance DecidableEq for Except

namespace FlowFi

/-- Largest value of the Rust `i128` type. -/
def i128Max : Int := 2 ^ 127 - 1

/-- Smallest value of the Rust `i128` type. -/
def i128Min : Int := -(2 ^ 127)

/-- Rust `i128::saturating_sub`: the exact difference clamped into the
`i128` range. -/
def i128SatSub (a b : Int) : Int := max i128Min (min i128Max (a - b))

/-- Rust `i128::saturating_add`: the exact sum clamped into the `i128`
range. -/
def i128SatAdd (a b : Int) : Int := max i128Min (min i128Max (a + b))

/-- Rust `i128::checked_mul`: `none` exactly when the exact product falls
outside the `i128` range. -/
def i128CheckedMul (a b : Int) : Option Int :=
  if a * b < i128Min ∨ i128Max < a * b then none else some (a * b)

/-- The error enum of `errors.rs`, as surfaced by `lib.rs`. -/
inductive StreamError where
  | AlreadyInitialized
  | NotInitialized
  | NotAdmin
  | InvalidFeeRate
  | InvalidAmount
  | InvalidDuration
  | InvalidTokenAddress
  | StreamNotFound
  | Unauthorized
  | StreamInactive
deriving DecidableEq, Repr

/-- The `Stream` record of `types.rs`, with the fields exactly as `lib.rs`
reads and writes them. -/
structure Stream where
  sender : Nat
  recipient : Nat
  token_address : Nat
  rate_per_second : Int
  deposited_amount : Int
  withdrawn_amount : Int
  start_time : Nat
  last_update_time : Nat
  is_active : Bool
deriving DecidableEq, Repr

/-- The singleton `ProtocolConfig` record. -/
structure ProtocolConfig where
  admin : Nat
  treasury : Nat
  fee_rate_bps : Nat
deriving DecidableEq, Repr

/-- One external `token.transfer(src, dst, amount)` call. -/
structure Transfer where
  src : Nat
  dst : Nat
  amount : Int
deriving DecidableEq, Repr

/-- The contract's own address (`env.current_contract_address()`), a fixed
atom distinct from the user addresses used in concrete examples. -/
def contractAddress : Nat := 0

/-- The contract's persistent storage: the optional singleton config, the
stream ledger keyed by id, and the monotonically increasing id counter
(ids start at 1). -/
structure State where
  config : Option ProtocolConfig
  streams : List (Nat × Stream)
  nextStreamId : Nat
deriving DecidableEq, Repr

/-- Storage before `initialize` and before any stream exists. -/
def initialState : State := ⟨none, [], 1⟩

/-- Storage read `load_stream` / `try_load_stream`. -/
def lookupStream : List (Nat × Stream) → Nat → Option Stream
  | [], _ => none
  | (i, st) :: rest, id => if i = id then some st else lookupStream rest id

/-- Storage write `save_stream`: replaces the entry for an existing id, or
appends a fresh one. -/
def saveStream : List (Nat × Stream) → Nat → Stream → List (Nat × Stream)
  | [], id, st => [(id, st)]
  | (i, st0) :: rest, id, st =>
      if i = id then (id, st) :: rest else (i, st0) :: saveStream rest id st

/-- Maximum allowed protocol fee: 1000 bps = 10%. -/
def MAX_FEE_RATE_BPS : Nat := 1000

/-- Every operation returns its `Result`, the storage it leaves behind, and
the token transfers it performed, in order. -/
abbrev OpResult (α : Type) := Except StreamError α × State × List Transfer

/-- The source's `initialize` (renamed): one-time setup of the protocol fee
configuration. -/
def initProtocol (s : State) (admin treasury : Nat) (fee_rate_bps : Nat) :
    OpResult Unit :=
  if s.config.isSome then (.error .AlreadyInitialized, s, [])
  else if fee_rate_bps > MAX_FEE_RATE_BPS then (.error .InvalidFeeRate, s, [])
  else (.ok (), { s with config := some ⟨admin, treasury, fee_rate_bps⟩ }, [])

/-- The source's `update_fee_config`: admin-only replacement of treasury and
fee rate; the stored admin is preserved. -/
def update_fee_config (s : State) (admin treasury : Nat) (fee_rate_bps : Nat) :
    OpResult Unit :=
  match s.config with
  | none => (.error .NotInitialized, s, [])
  | some cfg =>
      if cfg.admin ≠ admin then (.error .NotAdmin, s, [])
      else if fee_rate_bps > MAX_FEE_RATE_BPS then (.error .InvalidFeeRate, s, [])
      else (.ok (), { s with config := some ⟨cfg.admin, treasury, fee_rate_bps⟩ }, [])

/-- The source's `collect_fee`: deducts the protocol fee from `amount` and
returns the net amount together with the fee transfer it performed (none
when no config exists, the rate is 0, or the fee truncates to 0). Rust's
`i128` division `/` truncates toward zero, hence `Int.tdiv`. -/
def collect_fee (cfg : Option ProtocolConfig) (amount : Int) : Int × List Transfer :=
  match cfg with
  | some c =>
      if c.fee_rate_bps > 0 then
        let fee := Int.tdiv (amount * (c.fee_rate_bps : Int)) 10000
        (amount - fee,
         if fee > 0 then [⟨contractAddress, c.treasury, fee⟩] else [])
      else (amount, [])
  | none => (amount, [])

/-- The source's `create_stream`. `tokenOk` stands for the outcome of the
external `decimals` capability probe on the token address. -/
def create_stream (s : State) (tokenOk : Bool) (sender recipient token_address : Nat)
    (amount : Int) (duration : Nat) (now : Nat) : OpResult Nat :=
  if amount ≤ 0 then (.error .InvalidAmount, s, [])
  else if duration = 0 then (.error .InvalidDuration, s, [])
  else if tokenOk = false then (.error .InvalidTokenAddress, s, [])
  else
    let stream_id := s.nextStreamId
    let fee_result := collect_fee s.config amount
    let rate_per_second := Int.tdiv fee_result.1 (duration : Int)
    (.ok stream_id,
     { s with
        streams := saveStream s.streams stream_id
          ⟨sender, recipient, token_address, rate_per_second, fee_result.1, 0,
           now, now, true⟩,
        nextStreamId := stream_id + 1 },
     ⟨sender, contractAddress, amount⟩ :: fee_result.2)

/-- The source's `top_up_stream`: adds the net (post-fee) amount to the
deposit and resets `last_update_time`; nothing else changes. -/
def top_up_stream (s : State) (sender : Nat) (stream_id : Nat) (amount : Int)
    (now : Nat) : OpResult Unit :=
  if amount ≤ 0 then (.error .InvalidAmount, s, [])
  else
    match lookupStream s.streams stream_id with
    | none => (.error .StreamNotFound, s, [])
    | some st =>
        if st.sender ≠ sender then (.error .Unauthorized, s, [])
        else if st.is_active = false then (.error .StreamInactive, s, [])
        else
          let fee_result := collect_fee s.config amount
          (.ok (),
           { s with
              streams := saveStream s.streams stream_id
                { st with
                    deposited_amount := st.deposited_amount + fee_result.1,
                    last_update_time := now } },
           ⟨sender, contractAddress, amount⟩ :: fee_result.2)

/-- The source's `calculate_claimable`: elapsed time since the last update
(`u64::saturating_sub`, i.e. truncated `Nat` subtraction) times the rate,
with `i128::MAX` substituted on multiplication overflow, capped at the
remaining balance (`i128::saturating_sub`). -/
def calculate_claimable (st : Stream) (now : Nat) : Int :=
  min ((i128CheckedMul ((now - st.last_update_time : Nat) : Int)
          st.rate_per_second).getD i128Max)
      (i128SatSub st.deposited_amount st.withdrawn_amount)

/-- The source's `transfer_and_update_stream`: the updated stream plus the
payout transfer. The stream is marked inactive when the new withdrawn total
reaches the deposit. -/
def transfer_and_update_stream (st : Stream) (recipient : Nat) (amount : Int)
    (now : Nat) : Stream × Transfer :=
  ({ st with
      withdrawn_amount := st.withdrawn_amount + amount,
      last_update_time := now,
      is_active :=
        if st.deposited_amount ≤ st.withdrawn_amount + amount then false
        else st.is_active },
   ⟨contractAddress, recipient, amount⟩)

/-- The source's `withdraw`. The local `claimable` is written out as
`calculate_claimable st now` at each use. -/
def withdraw (s : State) (recipient : Nat) (stream_id : Nat) (now : Nat) :
    OpResult Int :=
  match lookupStream s.streams stream_id with
  | none => (.error .StreamNotFound, s, [])
  | some st =>
      if st.recipient ≠ recipient then (.error .Unauthorized, s, [])
      else if st.is_active = false then (.error .StreamInactive, s, [])
      else if calculate_claimable st now ≤ 0 then (.error .InvalidAmount, s, [])
      else
        (.ok (calculate_claimable st now),
         { s with
            streams := saveStream s.streams stream_id
              (transfer_and_update_stream st recipient
                (calculate_claimable st now) now).1 },
         [(transfer_and_update_stream st recipient
            (calculate_claimable st now) now).2])

/-- Value of the local `stream.withdrawn_amount` in the source's
`cancel_stream` after the recipient settlement: the saturating add happens
only when the accrued amount is positive. -/
def cancelWithdrawnAfter (st : Stream) (now : Nat) : Int :=
  if calculate_claimable st now > 0 then
    i128SatAdd st.withdrawn_amount (calculate_claimable st now)
  else st.withdrawn_amount

/-- The local `refunded_amount` in the source's `cancel_stream`: the
remaining balance after the recipient settlement. -/
def cancelRefund (st : Stream) (now : Nat) : Int :=
  i128SatSub st.deposited_amount (cancelWithdrawnAfter st now)

/-- The source's `cancel_stream`: settle the recipient with the accrued
amount (when positive), refund the remaining balance to the sender (when
positive), then deactivate the stream. The locals `accrued_amount`, the
updated `withdrawn_amount` and `refunded_amount` are the helper functions
above. -/
def cancel_stream (s : State) (sender : Nat) (stream_id : Nat) (now : Nat) :
    OpResult Unit :=
  match lookupStream s.streams stream_id with
  | none => (.error .StreamNotFound, s, [])
  | some st =>
      if st.sender ≠ sender then (.error .Unauthorized, s, [])
      else if st.is_active = false then (.error .StreamInactive, s, [])
      else
        (.ok (),
         { s with
            streams := saveStream s.streams stream_id
              { st with
                  withdrawn_amount := cancelWithdrawnAfter st now,
                  is_active := false,
                  last_update_time := now } },
         (if calculate_claimable st now > 0 then
            [⟨contractAddress, st.recipient, calculate_claimable st now⟩]
          else []) ++
         (if cancelRefund st now > 0 then
            [⟨contractAddress, sender, cancelRefund st now⟩]
          else []))

/-- Total amount moved by a list of transfers. -/
def transferTotal (log : List Transfer) : Int := (log.map Transfer.amount).sum

/-- States reachable from empty storage through the contract's public
entry points (with arbitrary arguments, timestamps and probe outcomes). -/
inductive Reachable : State → Prop where
  | genesis : Reachable initialState
  | cfgInit (s : State) (admin treasury bps : Nat) :
      Reachable s → Reachable (initProtocol s admin treasury bps).2.1
  | cfgUpdate (s : State) (admin treasury bps : Nat) :
      Reachable s → Reachable (update_fee_config s admin treasury bps).2.1
  | create (s : State) (tokenOk : Bool) (sender recipient token_address : Nat)
      (amount : Int) (duration now : Nat) :
      Reachable s →
      Reachable (create_stream s tokenOk sender recipient token_address amount
        duration now).2.1
  | topUp (s : State) (sender stream_id : Nat) (amount : Int) (now : Nat) :
      Reachable s → Reachable (top_up_stream s sender stream_id amount now).2.1
  | withdrawStep (s : State) (recipient stream_id now : Nat) :
      Reachable s → Reachable (withdraw s recipient stream_id now).2.1
  | cancelStep (s : State) (sender stream_id now : Nat) :
      Reachable s → Reachable (cancel_stream s sender stream_id now).2.1

/-- The spec's per-stream invariant set. -/
def streamInvariant (st : Stream) : Prop :=
  0 ≤ st.deposited_amount ∧ 0 ≤ st.withdrawn_amount ∧
  st.withdrawn_amount ≤ st.deposited_amount ∧ 0 ≤ st.rate_per_second ∧
  (st.withdrawn_amount = st.deposited_amount → st.is_active = false)

instance (st : Stream) : Decidable (streamInvariant st) := by
  unfold streamInvariant
  infer_instance

/-- Well-formedness of the stored config: the fee rate respects the bound
that `initialize` and `update_fee_config` enforce. -/
def configWF : Option ProtocolConfig → Prop
  | none => True
  | some c => c.fee_rate_bps ≤ MAX_FEE_RATE_BPS

instance (cfg : Option ProtocolConfig) : Decidable (configWF cfg) := by
  cases cfg <;> (unfold configWF; infer_instance)

/-- The inductive state invariant: a well-formed config and every ledger
entry satisfying the per-stream invariant. -/
def stateInv (s : State) : Prop :=
  configWF s.config ∧ ∀ p ∈ s.streams, streamInvariant p.2

/-- The fee exactly as the spec words it: `floor(amount * fee_rate_bps /
10000)`, and 0 when no config exists. -/
def specFee (cfg : Option ProtocolConfig) (amount : Int) : Int :=
  match cfg with
  | none => 0
  | some c => Int.fdiv (amount * (c.fee_rate_bps : Int)) 10000

/-- The streamed term exactly as the spec words it: elapsed time floored at
zero times the rate, with the maximum representable value substituted when
the product overflows the `i128` range. -/
def specStreamed (st : Stream) (now : Nat) : Int :=
  if ((now - st.last_update_time : Nat) : Int) * st.rate_per_second < i128Min ∨
      i128Max < ((now - st.last_update_time : Nat) : Int) * st.rate_per_second then
    i128Max
  else ((now - st.last_update_time : Nat) : Int) * st.rate_per_second

/-- The claimable formula exactly as claim C1 words it, with the remaining
balance floored at zero. -/
def claimableSpecZeroFloor (st : Stream) (now : Nat) : Int :=
  min (specStreamed st now) (max (st.deposited_amount - st.withdrawn_amount) 0)

/-- The claimable formula with the remaining balance computed by `i128`
saturating subtraction (clamped to the `i128` range) instead of floored at
zero. -/
def claimableSpecSatRemaining (st : Stream) (now : Nat) : Int :=
  min (specStreamed st now)
      (max i128Min (min i128Max (st.deposited_amount - st.withdrawn_amount)))

-- ── Helper lemmas ──────────────────────────────────────────────────────────

theorem lookupStream_mem {l : List (Nat × Stream)} {id : Nat} {st : Stream}
    (h : lookupStream l id = some st) : (id, st) ∈ l := by
  induction l with
  | nil => simp [lookupStream] at h
  | cons p rest ih =>
      obtain ⟨i, st0⟩ := p
      unfold lookupStream at h
      by_cases hi : i = id
      · simp [hi] at h
        subst hi
        subst h
        exact List.mem_cons_self _ _
      · simp [hi] at h
        exact List.mem_cons_of_mem _ (ih h)

theorem mem_saveStream {l : List (Nat × Stream)} {id : Nat} {st : Stream}
    {p : Nat × Stream} (h : p ∈ saveStream l id st) : p = (id, st) ∨ p ∈ l := by
  induction l with
  | nil => simpa [saveStream] using h
  | cons q rest ih =>
      obtain ⟨i, st0⟩ := q
      unfold saveStream at h
      by_cases hi : i = id
      · simp [hi] at h
        rcases h with h | h
        · exact Or.inl h
        · exact Or.inr (List.mem_cons_of_mem _ h)
      · simp [hi] at h
        rcases h with h | h
        · exact Or.inr (by simp [h])
        · rcases ih h with h' | h'
          · exact Or.inl h'
          · exact Or.inr (List.mem_cons_of_mem _ h')

theorem lookupStream_saveStream_self (l : List (Nat × Stream)) (id : Nat)
    (st : Stream) : lookupStream (saveStream l id st) id = some st := by
  induction l with
  | nil => simp [saveStream, lookupStream]
  | cons q rest ih =>
      obtain ⟨i, st0⟩ := q
      unfold saveStream
      by_cases hi : i = id
      · simp [hi, lookupStream]
      · simp [hi, lookupStream, ih]

theorem i128Min_lt_zero : i128Min < 0 := by
  unfold i128Min
  norm_num

theorem zero_lt_i128Max : 0 < i128Max := by
  unfold i128Max
  norm_num

theorem i128SatSub_le {a b : Int} (h : 0 ≤ a - b) : i128SatSub a b ≤ a - b := by
  have := i128Min_lt_zero
  unfold i128SatSub
  omega

theorem i128SatSub_eq {a b : Int} (h1 : 0 ≤ a - b) (h2 : a - b ≤ i128Max) :
    i128SatSub a b = a - b := by
  have := i128Min_lt_zero
  unfold i128SatSub
  omega

theorem i128SatSub_nonneg {a b : Int} (h : b ≤ a) : 0 ≤ i128SatSub a b := by
  have := i128Min_lt_zero
  have := zero_lt_i128Max
  unfold i128SatSub
  omega

theorem i128CheckedMul_getD_nonneg {a b : Int} (ha : 0 ≤ a) (hb : 0 ≤ b) :
    (i128CheckedMul a b).getD i128Max = min (a * b) i128Max := by
  have hp : 0 ≤ a * b := mul_nonneg ha hb
  have hm := i128Min_lt_zero
  unfold i128CheckedMul
  split
  · rename_i h
    rcases h with h | h
    · omega
    · simp [Option.getD]
      omega
  · rename_i h
    push_neg at h
    simp [Option.getD]
    omega

theorem calculate_claimable_le_remaining (st : Stream) (now : Nat) :
    calculate_claimable st now ≤
      i128SatSub st.deposited_amount st.withdrawn_amount :=
  min_le_right _ _

theorem calculate_claimable_nonneg {st : Stream} (now : Nat)
    (hrate : 0 ≤ st.rate_per_second)
    (hwd : st.withdrawn_amount ≤ st.deposited_amount) :
    0 ≤ calculate_claimable st now := by
  unfold calculate_claimable
  rw [i128CheckedMul_getD_nonneg (Int.natCast_nonneg _) hrate]
  have h1 : 0 ≤ i128SatSub st.deposited_amount st.withdrawn_amount :=
    i128SatSub_nonneg hwd
  have h2 : 0 ≤ ((now - st.last_update_time : Nat) : Int) * st.rate_per_second :=
    mul_nonneg (Int.natCast_nonneg _) hrate
  have := zero_lt_i128Max
  omega

theorem i128CheckedMul_zero_left (b : Int) :
    (i128CheckedMul 0 b).getD i128Max = 0 := by
  unfold i128CheckedMul
  norm_num [i128Min, i128Max]

theorem calculate_claimable_zero_elapsed {st : Stream} {now : Nat}
    (h : now ≤ st.last_update_time)
    (hwd : st.withdrawn_amount ≤ st.deposited_amount) :
    calculate_claimable st now = 0 := by
  unfold calculate_claimable
  rw [Nat.sub_eq_zero_of_le h, Nat.cast_zero, i128CheckedMul_zero_left]
  have h1 : 0 ≤ i128SatSub st.deposited_amount st.withdrawn_amount :=
    i128SatSub_nonneg hwd
  omega

-- ── Fee collector lemmas ───────────────────────────────────────────────────

theorem collect_fee_fee_nonneg {amount : Int} (bps : Nat) (h : 0 ≤ amount) :
    0 ≤ Int.tdiv (amount * (bps : Int)) 10000 :=
  Int.tdiv_nonneg (mul_nonneg h (Int.natCast_nonneg _)) (by norm_num)

theorem collect_fee_fee_lt {bps : Nat} (hc : bps ≤ MAX_FEE_RATE_BPS)
    {amount : Int} (h : 0 < amount) :
    Int.tdiv (amount * (bps : Int)) 10000 < amount := by
  have hnn : (0 : Int) ≤ amount * (bps : Int) :=
    mul_nonneg (le_of_lt h) (Int.natCast_nonneg _)
  rw [Int.tdiv_eq_ediv hnn (by norm_num)]
  rw [Int.ediv_lt_iff_lt_mul (by norm_num)]
  have hb : (bps : Int) ≤ 1000 := by
    unfold MAX_FEE_RATE_BPS at hc
    exact_mod_cast hc
  calc amount * (bps : Int) ≤ amount * 1000 :=
        mul_le_mul_of_nonneg_left hb (le_of_lt h)
    _ < amount * 10000 := by
        have := mul_lt_mul_of_pos_left (show (1000 : Int) < 10000 by norm_num) h
        linarith

theorem collect_fee_pos {cfg : Option ProtocolConfig} (hcfg : configWF cfg)
    {amount : Int} (h : 0 < amount) : 0 < (collect_fee cfg amount).1 := by
  cases cfg with
  | none => simpa [collect_fee] using h
  | some c =>
      unfold collect_fee
      by_cases hb : c.fee_rate_bps > 0
      · simp only [hb, if_true]
        have hlt := collect_fee_fee_lt (hcfg : c.fee_rate_bps ≤ MAX_FEE_RATE_BPS) h
        show 0 < amount - Int.tdiv (amount * (c.fee_rate_bps : Int)) 10000
        omega
      · simp [hb]
        exact h

theorem collect_fee_le {cfg : Option ProtocolConfig} {amount : Int}
    (h : 0 ≤ amount) : (collect_fee cfg amount).1 ≤ amount := by
  cases cfg with
  | none => simp [collect_fee]
  | some c =>
      unfold collect_fee
      by_cases hb : c.fee_rate_bps > 0
      · simp only [hb, if_true]
        have hnn := collect_fee_fee_nonneg c.fee_rate_bps h
        show amount - Int.tdiv (amount * (c.fee_rate_bps : Int)) 10000 ≤ amount
        omega
      · simp [hb]

theorem collect_fee_net_eq (cfg : Option ProtocolConfig) {amount : Int}
    (h : 0 ≤ amount) : (collect_fee cfg amount).1 = amount - specFee cfg amount := by
  cases cfg with
  | none => simp [collect_fee, specFee]
  | some c =>
      unfold collect_fee specFee
      have hnn : (0 : Int) ≤ amount * (c.fee_rate_bps : Int) :=
        mul_nonneg h (Int.natCast_nonneg _)
      by_cases hb : c.fee_rate_bps > 0
      · simp only [hb, if_true]
        show amount - Int.tdiv (amount * (c.fee_rate_bps : Int)) 10000
            = amount - Int.fdiv (amount * (c.fee_rate_bps : Int)) 10000
        rw [Int.tdiv_eq_ediv hnn (by norm_num), Int.fdiv_eq_ediv _ (by norm_num)]
      · have hb0 : c.fee_rate_bps = 0 := by omega
        simp [hb, hb0]

-- ── Invariant preservation ─────────────────────────────────────────────────

theorem inv_of_lookup {s : State} (h : stateInv s) {id : Nat} {st : Stream}
    (hlook : lookupStream s.streams id = some st) : streamInvariant st :=
  h.2 (id, st) (lookupStream_mem hlook)

theorem allStreams_save {l : List (Nat × Stream)}
    (h : ∀ p ∈ l, streamInvariant p.2) {st : Stream}
    (hst : streamInvariant st) (id : Nat) :
    ∀ p ∈ saveStream l id st, streamInvariant p.2 := by
  intro p hp
  rcases mem_saveStream hp with rfl | hp'
  · exact hst
  · exact h p hp'

theorem stateInv_initProtocol (s : State) (admin treasury bps : Nat)
    (h : stateInv s) : stateInv (initProtocol s admin treasury bps).2.1 := by
  unfold initProtocol
  split
  · exact h
  · split
    · exact h
    · rename_i hbps
      refine ⟨?_, h.2⟩
      show bps ≤ MAX_FEE_RATE_BPS
      omega

theorem stateInv_update_fee_config (s : State) (admin treasury bps : Nat)
    (h : stateInv s) : stateInv (update_fee_config s admin treasury bps).2.1 := by
  unfold update_fee_config
  split
  · exact h
  · split
    · exact h
    · split
      · exact h
      · rename_i hbps
        refine ⟨?_, h.2⟩
        show bps ≤ MAX_FEE_RATE_BPS
        omega

theorem stateInv_create_stream (s : State) (tokenOk : Bool)
    (sender recipient token_address : Nat) (amount : Int) (duration now : Nat)
    (h : stateInv s) :
    stateInv (create_stream s tokenOk sender recipient token_address amount
      duration now).2.1 := by
  unfold create_stream
  split
  · exact h
  · split
    · exact h
    · split
      · exact h
      · rename_i hamt hdur htok
        have hamt' : 0 < amount := by omega
        have hnet := collect_fee_pos h.1 hamt'
        apply And.intro
        · exact h.1
        · apply allStreams_save h.2
          unfold streamInvariant
          dsimp only
          refine ⟨le_of_lt hnet, le_rfl, le_of_lt hnet,
            Int.tdiv_nonneg (le_of_lt hnet) (Int.natCast_nonneg _), ?_⟩
          intro h0
          exact absurd h0 (by omega)

theorem stateInv_top_up_stream (s : State) (sender stream_id : Nat)
    (amount : Int) (now : Nat) (h : stateInv s) :
    stateInv (top_up_stream s sender stream_id amount now).2.1 := by
  unfold top_up_stream
  split
  · exact h
  · split
    · exact h
    · rename_i hamt st heq
      split
      · exact h
      · split
        · exact h
        · have hamt' : 0 < amount := by omega
          have hnet := collect_fee_pos h.1 hamt'
          obtain ⟨h1, h2, h3, h4, h5⟩ := inv_of_lookup h heq
          apply And.intro
          · exact h.1
          · apply allStreams_save h.2
            unfold streamInvariant
            dsimp only
            refine ⟨by omega, h2, by omega, h4, ?_⟩
            intro h0
            exfalso
            omega

theorem stateInv_withdraw (s : State) (recipient stream_id now : Nat)
    (h : stateInv s) : stateInv (withdraw s recipient stream_id now).2.1 := by
  unfold withdraw
  split
  · exact h
  · rename_i st heq
    split
    · exact h
    · split
      · exact h
      · split
        · exact h
        · rename_i hrcp hact hclaim
          obtain ⟨h1, h2, h3, h4, h5⟩ := inv_of_lookup h heq
          have hc : 0 < calculate_claimable st now := by omega
          have hle := calculate_claimable_le_remaining st now
          have hsub : i128SatSub st.deposited_amount st.withdrawn_amount ≤
              st.deposited_amount - st.withdrawn_amount := i128SatSub_le (by omega)
          apply And.intro
          · exact h.1
          · apply allStreams_save h.2
            unfold transfer_and_update_stream streamInvariant
            dsimp only
            refine ⟨h1, by omega, by omega, h4, ?_⟩
            intro h0
            split
            · rfl
            · exfalso
              omega

theorem stateInv_cancel_stream (s : State) (sender stream_id now : Nat)
    (h : stateInv s) : stateInv (cancel_stream s sender stream_id now).2.1 := by
  unfold cancel_stream
  split
  · exact h
  · rename_i st heq
    split
    · exact h
    · split
      · exact h
      · rename_i hsend hact
        obtain ⟨h1, h2, h3, h4, h5⟩ := inv_of_lookup h heq
        have hle := calculate_claimable_le_remaining st now
        have hsub : i128SatSub st.deposited_amount st.withdrawn_amount ≤
            st.deposited_amount - st.withdrawn_amount := i128SatSub_le (by omega)
        have hMin := i128Min_lt_zero
        have hMax := zero_lt_i128Max
        have hbounds : 0 ≤ cancelWithdrawnAfter st now ∧
            cancelWithdrawnAfter st now ≤ st.deposited_amount := by
          unfold cancelWithdrawnAfter
          split
          · unfold i128SatAdd
            omega
          · omega
        apply And.intro
        · exact h.1
        · apply allStreams_save h.2
          unfold streamInvariant
          dsimp only
          exact ⟨h1, hbounds.1, hbounds.2, h4, fun _ => rfl⟩

theorem stateInv_reachable {s : State} (h : Reachable s) : stateInv s := by
  induction h with
  | genesis => exact ⟨trivial, by intro p hp; simp [initialState] at hp⟩
  | cfgInit s a t bps _ ih => exact stateInv_initProtocol s a t bps ih
  | cfgUpdate s a t bps _ ih => exact stateInv_update_fee_config s a t bps ih
  | create s tok sd rc ta amt dur now _ ih =>
      exact stateInv_create_stream s tok sd rc ta amt dur now ih
  | topUp s sd id amt now _ ih => exact stateInv_top_up_stream s sd id amt now ih
  | withdrawStep s rc id now _ ih => exact stateInv_withdraw s rc id now ih
  | cancelStep s sd id now _ ih => exact stateInv_cancel_stream s sd id now ih

-- ── Claim C2 ───────────────────────────────────────────────────────────────

/-- C2: after every successful public operation — that is, in every state
reachable from empty storage through the contract's entry points — every
stored Stream record satisfies `deposited_amount ≥ 0`,
`withdrawn_amount ≥ 0`, `withdrawn_amount ≤ deposited_amount`,
`rate_per_second ≥ 0`, and `is_active = false` whenever
`withdrawn_amount = deposited_amount`. -/
theorem reachable_stream_invariants (s : State) (h : Reachable s) (id : Nat)
    (st : Stream) (hlook : lookupStream s.streams id = some st) :
    0 ≤ st.deposited_amount ∧ 0 ≤ st.withdrawn_amount ∧
    st.withdrawn_amount ≤ st.deposited_amount ∧ 0 ≤ st.rate_per_second ∧
    (st.withdrawn_amount = st.deposited_amount → st.is_active = false) :=
  inv_of_lookup (stateInv_reachable h) hlook

set_option maxRecDepth 10000 in
/-- Witness for C2 at a concrete reachable state: the stream created by
`create_stream` on empty storage with amount 1000 and duration 10. -/
theorem reachable_stream_invariants_witness :
    streamInvariant ⟨1, 2, 3, 100, 1000, 0, 0, 0, true⟩ :=
  reachable_stream_invariants _
    (Reachable.create initialState true 1 2 3 1000 10 0 Reachable.genesis) 1
    ⟨1, 2, 3, 100, 1000, 0, 0, 0, true⟩ (by decide)

-- ── Claim C1 ───────────────────────────────────────────────────────────────

set_option maxRecDepth 10000 in
/-- Counterexample to C1 as stated: for a stream record with
`deposited_amount = 0` and `withdrawn_amount = 1`, the code computes the
remaining balance with `i128::saturating_sub` (giving -1), not floored at
zero, so `calculate_claimable` returns -1 while the claimed formula
returns 0. -/
theorem calculate_claimable_not_zero_floored :
    calculate_claimable ⟨1, 2, 3, 0, 0, 1, 0, 0, true⟩ 0 = -1 ∧
    claimableSpecZeroFloor ⟨1, 2, 3, 0, 0, 1, 0, 0, true⟩ 0 = 0 := by
  constructor <;> decide

/-- C1 amended: `calculate_claimable` equals `min(streamed, remaining)`
where `remaining = deposited_amount - withdrawn_amount` is computed with
`i128` saturating subtraction (clamped to the `i128` range) rather than
floored at zero; for every stream with
`0 ≤ withdrawn_amount ≤ deposited_amount ≤ i128::MAX` (in particular every
stream of a reachable state) the zero-floored formula of the claim
agrees. -/
theorem calculate_claimable_formula (st : Stream) (now : Nat)
    (hw : 0 ≤ st.withdrawn_amount)
    (hwd : st.withdrawn_amount ≤ st.deposited_amount)
    (hd : st.deposited_amount ≤ i128Max) :
    calculate_claimable st now = claimableSpecSatRemaining st now ∧
    calculate_claimable st now = claimableSpecZeroFloor st now := by
  have heq : calculate_claimable st now = claimableSpecSatRemaining st now := by
    unfold calculate_claimable claimableSpecSatRemaining specStreamed
      i128CheckedMul i128SatSub
    split <;> simp [Option.getD]
  refine ⟨heq, ?_⟩
  rw [heq]
  unfold claimableSpecSatRemaining claimableSpecZeroFloor
  generalize specStreamed st now = q
  have := i128Min_lt_zero
  omega

set_option maxRecDepth 10000 in
/-- Witness for the amended C1 at a concrete stream and timestamp. -/
theorem calculate_claimable_formula_witness :
    calculate_claimable ⟨1, 2, 3, 5, 100, 20, 0, 0, true⟩ 4 =
      claimableSpecSatRemaining ⟨1, 2, 3, 5, 100, 20, 0, 0, true⟩ 4 ∧
    calculate_claimable ⟨1, 2, 3, 5, 100, 20, 0, 0, true⟩ 4 =
      claimableSpecZeroFloor ⟨1, 2, 3, 5, 100, 20, 0, 0, true⟩ 4 :=
  calculate_claimable_formula ⟨1, 2, 3, 5, 100, 20, 0, 0, true⟩ 4
    (by decide) (by decide) (by decide)

-- ── Claim C5 ───────────────────────────────────────────────────────────────

/-- C5: `collect_fee` returns the gross amount with no transfer when no
config exists or the fee rate is zero; otherwise the fee is the truncating
division `gross * fee_rate_bps / 10000` (which coincides with the
rounding-down floor division for positive gross amounts), it is transferred
to the treasury exactly when positive, and the net result is
`gross - fee`. -/
theorem collect_fee_spec (c : ProtocolConfig) (gross : Int) :
    collect_fee none gross = (gross, []) ∧
    (c.fee_rate_bps = 0 → collect_fee (some c) gross = (gross, [])) ∧
    (0 < c.fee_rate_bps →
      (collect_fee (some c) gross).1 =
        gross - Int.tdiv (gross * (c.fee_rate_bps : Int)) 10000 ∧
      (0 < Int.tdiv (gross * (c.fee_rate_bps : Int)) 10000 →
        (collect_fee (some c) gross).2 =
          [⟨contractAddress, c.treasury,
            Int.tdiv (gross * (c.fee_rate_bps : Int)) 10000⟩]) ∧
      (Int.tdiv (gross * (c.fee_rate_bps : Int)) 10000 ≤ 0 →
        (collect_fee (some c) gross).2 = []) ∧
      (0 < gross →
        Int.tdiv (gross * (c.fee_rate_bps : Int)) 10000 =
          Int.fdiv (gross * (c.fee_rate_bps : Int)) 10000)) := by
  refine ⟨rfl, ?_, ?_⟩
  · intro h0
    simp [collect_fee, h0]
  · intro hb
    have hite : collect_fee (some c) gross =
        (gross - Int.tdiv (gross * (c.fee_rate_bps : Int)) 10000,
         if Int.tdiv (gross * (c.fee_rate_bps : Int)) 10000 > 0 then
           [⟨contractAddress, c.treasury,
             Int.tdiv (gross * (c.fee_rate_bps : Int)) 10000⟩]
         else []) := by
      unfold collect_fee
      dsimp only
      rw [if_pos hb]
    refine ⟨by rw [hite], ?_, ?_, ?_⟩
    · intro hf
      rw [hite]
      dsimp only
      rw [if_pos hf]
    · intro hf
      rw [hite]
      dsimp only
      rw [if_neg (by omega)]
    · intro hg
      have hnn : (0 : Int) ≤ gross * (c.fee_rate_bps : Int) :=
        mul_nonneg (le_of_lt hg) (Int.natCast_nonneg _)
      rw [Int.tdiv_eq_ediv hnn (by norm_num), Int.fdiv_eq_ediv _ (by norm_num)]

-- ── Claim C6 ───────────────────────────────────────────────────────────────

/-- C6: for a stream with nonnegative rate and balances in the invariant
range, the claimable amount is monotone non-decreasing in time and never
exceeds the remaining balance `deposited_amount - withdrawn_amount`. -/
theorem calculate_claimable_monotone (st : Stream) (t1 t2 : Nat)
    (hrate : 0 ≤ st.rate_per_second)
    (hlu : st.last_update_time ≤ t1) (h12 : t1 ≤ t2)
    (hw : 0 ≤ st.withdrawn_amount)
    (hwd : st.withdrawn_amount ≤ st.deposited_amount)
    (hd : st.deposited_amount ≤ i128Max) :
    calculate_claimable st t1 ≤ calculate_claimable st t2 ∧
    calculate_claimable st t2 ≤ st.deposited_amount - st.withdrawn_amount := by
  have e1 : ((t1 - st.last_update_time : Nat) : Int) ≤
      ((t2 - st.last_update_time : Nat) : Int) := by
    exact_mod_cast Nat.sub_le_sub_right h12 _
  have hmul : ((t1 - st.last_update_time : Nat) : Int) * st.rate_per_second ≤
      ((t2 - st.last_update_time : Nat) : Int) * st.rate_per_second :=
    mul_le_mul_of_nonneg_right e1 hrate
  have hsat : i128SatSub st.deposited_amount st.withdrawn_amount =
      st.deposited_amount - st.withdrawn_amount :=
    i128SatSub_eq (by omega) (by omega)
  unfold calculate_claimable
  rw [i128CheckedMul_getD_nonneg (Int.natCast_nonneg _) hrate,
      i128CheckedMul_getD_nonneg (Int.natCast_nonneg _) hrate, hsat]
  revert hmul
  generalize ((t1 - st.last_update_time : Nat) : Int) * st.rate_per_second = p1
  generalize ((t2 - st.last_update_time : Nat) : Int) * st.rate_per_second = p2
  intro hmul
  omega

set_option maxRecDepth 10000 in
/-- Witness for C6 at a concrete stream and pair of timestamps. -/
theorem calculate_claimable_monotone_witness :
    calculate_claimable ⟨1, 2, 3, 5, 100, 20, 0, 0, true⟩ 2 ≤
      calculate_claimable ⟨1, 2, 3, 5, 100, 20, 0, 0, true⟩ 4 ∧
    calculate_claimable ⟨1, 2, 3, 5, 100, 20, 0, 0, true⟩ 4 ≤
      (⟨1, 2, 3, 5, 100, 20, 0, 0, true⟩ : Stream).deposited_amount -
        (⟨1, 2, 3, 5, 100, 20, 0, 0, true⟩ : Stream).withdrawn_amount :=
  calculate_claimable_monotone ⟨1, 2, 3, 5, 100, 20, 0, 0, true⟩ 2 4
    (by decide) (by decide) (by decide) (by decide) (by decide) (by decide)

-- ── Claim C3 ───────────────────────────────────────────────────────────────

/-- C3: a successful `cancel_stream` on an active stream (whose record lies
in the invariant range) pays the recipient exactly the accrued
`calculate_claimable`, refunds the sender exactly
`deposited_amount - (withdrawn_amount_before + accrued)`, moves in total
exactly `deposited_amount - withdrawn_amount_before` (no funds created or
destroyed), and leaves the stream inactive with `last_update_time = now`
and the accrued amount added to `withdrawn_amount`. -/
theorem cancel_stream_settlement (s : State) (sender stream_id now : Nat)
    (st : Stream) (hlook : lookupStream s.streams stream_id = some st)
    (hsend : st.sender = sender) (hact : st.is_active = true)
    (hw : 0 ≤ st.withdrawn_amount)
    (hwd : st.withdrawn_amount ≤ st.deposited_amount)
    (hd : st.deposited_amount ≤ i128Max)
    (hrate : 0 ≤ st.rate_per_second) :
    (cancel_stream s sender stream_id now).1 = .ok () ∧
    (cancel_stream s sender stream_id now).2.2 =
      (if 0 < calculate_claimable st now then
        [⟨contractAddress, st.recipient, calculate_claimable st now⟩]
       else []) ++
      (if 0 < st.deposited_amount -
            (st.withdrawn_amount + calculate_claimable st now) then
        [⟨contractAddress, sender,
          st.deposited_amount -
            (st.withdrawn_amount + calculate_claimable st now)⟩]
       else []) ∧
    transferTotal (cancel_stream s sender stream_id now).2.2 =
      st.deposited_amount - st.withdrawn_amount ∧
    lookupStream (cancel_stream s sender stream_id now).2.1.streams stream_id =
      some { st with
              withdrawn_amount :=
                st.withdrawn_amount + calculate_claimable st now,
              is_active := false,
              last_update_time := now } := by
  have hc0 : 0 ≤ calculate_claimable st now :=
    calculate_claimable_nonneg now hrate hwd
  have hle := calculate_claimable_le_remaining st now
  have hsat : i128SatSub st.deposited_amount st.withdrawn_amount =
      st.deposited_amount - st.withdrawn_amount :=
    i128SatSub_eq (by omega) (by omega)
  have hcd : calculate_claimable st now ≤
      st.deposited_amount - st.withdrawn_amount := by omega
  have hMin := i128Min_lt_zero
  have hwa : cancelWithdrawnAfter st now =
      st.withdrawn_amount + calculate_claimable st now := by
    unfold cancelWithdrawnAfter
    split
    · unfold i128SatAdd
      omega
    · omega
  have href : cancelRefund st now =
      st.deposited_amount -
        (st.withdrawn_amount + calculate_claimable st now) := by
    unfold cancelRefund
    rw [hwa]
    exact i128SatSub_eq (by omega) (by omega)
  have h2 : ¬ st.sender ≠ sender := by simp [hsend]
  have h3 : ¬ st.is_active = false := by simp [hact]
  unfold cancel_stream
  rw [hlook]
  dsimp only
  rw [if_neg h2, if_neg h3]
  refine ⟨rfl, ?_, ?_, ?_⟩
  · rw [href]
  · rw [href]
    by_cases hca : 0 < calculate_claimable st now
    · by_cases hrf : 0 < st.deposited_amount -
          (st.withdrawn_amount + calculate_claimable st now)
      · rw [if_pos hca, if_pos hrf]
        unfold transferTotal
        simp
        omega
      · rw [if_pos hca, if_neg hrf]
        unfold transferTotal
        simp
        omega
    · by_cases hrf : 0 < st.deposited_amount -
          (st.withdrawn_amount + calculate_claimable st now)
      · rw [if_neg hca, if_pos hrf]
        unfold transferTotal
        simp
        omega
      · rw [if_neg hca, if_neg hrf]
        unfold transferTotal
        simp
        omega
  · rw [lookupStream_saveStream_self, hwa]

set_option maxRecDepth 10000 in
/-- Witness for C3 at a concrete state: cancelling at time 4 a stream of
rate 5 with deposit 100 of which 20 was already withdrawn pays the
recipient the accrued 20, refunds the sender 60, moves 80 in total, and
deactivates the stream. -/
theorem cancel_stream_settlement_witness :
    (cancel_stream ⟨none, [(1, ⟨1, 2, 3, 5, 100, 20, 0, 0, true⟩)], 2⟩
        1 1 4).1 = .ok () ∧
    (cancel_stream ⟨none, [(1, ⟨1, 2, 3, 5, 100, 20, 0, 0, true⟩)], 2⟩
        1 1 4).2.2 = [⟨0, 2, 20⟩, ⟨0, 1, 60⟩] ∧
    transferTotal
      (cancel_stream ⟨none, [(1, ⟨1, 2, 3, 5, 100, 20, 0, 0, true⟩)], 2⟩
        1 1 4).2.2 = 80 ∧
    lookupStream
      (cancel_stream ⟨none, [(1, ⟨1, 2, 3, 5, 100, 20, 0, 0, true⟩)], 2⟩
        1 1 4).2.1.streams 1 = some ⟨1, 2, 3, 5, 100, 40, 0, 4, false⟩ :=
  cancel_stream_settlement ⟨none, [(1, ⟨1, 2, 3, 5, 100, 20, 0, 0, true⟩)], 2⟩
    1 1 4 ⟨1, 2, 3, 5, 100, 20, 0, 0, true⟩ (by decide) rfl rfl
    (by decide) (by decide) (by decide) (by decide)

-- ── Claim C4 ───────────────────────────────────────────────────────────────

/-- C4: with a well-formed config, `create_stream` fails with
`InvalidAmount` when `amount ≤ 0`, fails with `InvalidDuration` when the
amount is positive but `duration = 0`, and otherwise (token probe passing)
succeeds with the next stream id and stores a stream with
`deposited_amount = amount - fee` (`fee = floor(amount*fee_rate_bps/10000)`,
0 when unconfigured), `withdrawn_amount = 0`,
`rate_per_second = floor(deposited_amount / duration)`,
`start_time = last_update_time = now`, and `is_active = true`. -/
theorem create_stream_spec (s : State) (tokenOk : Bool)
    (sender recipient token_address : Nat) (amount : Int) (duration now : Nat)
    (hcfg : configWF s.config) :
    (amount ≤ 0 →
      create_stream s tokenOk sender recipient token_address amount duration now
        = (.error .InvalidAmount, s, [])) ∧
    (0 < amount → duration = 0 →
      create_stream s tokenOk sender recipient token_address amount duration now
        = (.error .InvalidDuration, s, [])) ∧
    (0 < amount → duration ≠ 0 → tokenOk = true →
      (create_stream s tokenOk sender recipient token_address amount duration
          now).1 = .ok s.nextStreamId ∧
      lookupStream (create_stream s tokenOk sender recipient token_address
          amount duration now).2.1.streams s.nextStreamId =
        some ⟨sender, recipient, token_address,
              Int.fdiv (amount - specFee s.config amount) (duration : Int),
              amount - specFee s.config amount, 0, now, now, true⟩) := by
  refine ⟨?_, ?_, ?_⟩
  · intro h
    unfold create_stream
    rw [if_pos h]
  · intro ha hd
    unfold create_stream
    rw [if_neg (by omega), if_pos hd]
  · intro ha hd ht
    have hnet : (collect_fee s.config amount).1 = amount - specFee s.config amount :=
      collect_fee_net_eq s.config (le_of_lt ha)
    have hpos : 0 < (collect_fee s.config amount).1 := collect_fee_pos hcfg ha
    have hdd : (0 : Int) ≤ (duration : Int) := Int.natCast_nonneg _
    unfold create_stream
    rw [if_neg (by omega), if_neg hd, if_neg (by simp [ht])]
    dsimp only
    refine ⟨rfl, ?_⟩
    rw [lookupStream_saveStream_self, ← hnet,
        Int.tdiv_eq_ediv (le_of_lt hpos) hdd, Int.fdiv_eq_ediv _ hdd]

set_option maxRecDepth 10000 in
/-- Witness for C4: creating a stream on empty storage with amount 1000 and
duration 10 at time 7 stores deposit 1000, rate 100, zero withdrawn, both
timestamps 7, active. -/
theorem create_stream_spec_witness :
    ((1000 : Int) ≤ 0 → create_stream initialState true 1 2 3 1000 10 7
        = (.error .InvalidAmount, initialState, [])) ∧
    ((0 : Int) < 1000 → (10 : Nat) = 0 →
      create_stream initialState true 1 2 3 1000 10 7
        = (.error .InvalidDuration, initialState, [])) ∧
    ((0 : Int) < 1000 → (10 : Nat) ≠ 0 → true = true →
      (create_stream initialState true 1 2 3 1000 10 7).1 = .ok 1 ∧
      lookupStream (create_stream initialState true 1 2 3 1000 10 7).2.1.streams 1
        = some ⟨1, 2, 3, 100, 1000, 0, 7, 7, true⟩) :=
  create_stream_spec initialState true 1 2 3 1000 10 7 (by decide)

-- ── Claim C7 ───────────────────────────────────────────────────────────────

/-- C7: every public mutating operation validates all its preconditions
before performing any external token transfer, so whenever an operation
returns an error it has performed no transfer and the stored state (stream
ledger, config and id counter) is exactly the input state. -/
theorem error_leaves_state_unchanged (s : State) :
    (∀ admin treasury bps e,
      (initProtocol s admin treasury bps).1 = .error e →
      (initProtocol s admin treasury bps).2.1 = s ∧
      (initProtocol s admin treasury bps).2.2 = []) ∧
    (∀ admin treasury bps e,
      (update_fee_config s admin treasury bps).1 = .error e →
      (update_fee_config s admin treasury bps).2.1 = s ∧
      (update_fee_config s admin treasury bps).2.2 = []) ∧
    (∀ tokenOk sender recipient token_address amount duration now e,
      (create_stream s tokenOk sender recipient token_address amount duration
        now).1 = .error e →
      (create_stream s tokenOk sender recipient token_address amount duration
        now).2.1 = s ∧
      (create_stream s tokenOk sender recipient token_address amount duration
        now).2.2 = []) ∧
    (∀ sender stream_id amount now e,
      (top_up_stream s sender stream_id amount now).1 = .error e →
      (top_up_stream s sender stream_id amount now).2.1 = s ∧
      (top_up_stream s sender stream_id amount now).2.2 = []) ∧
    (∀ recipient stream_id now e,
      (withdraw s recipient stream_id now).1 = .error e →
      (withdraw s recipient stream_id now).2.1 = s ∧
      (withdraw s recipient stream_id now).2.2 = []) ∧
    (∀ sender stream_id now e,
      (cancel_stream s sender stream_id now).1 = .error e →
      (cancel_stream s sender stream_id now).2.1 = s ∧
      (cancel_stream s sender stream_id now).2.2 = []) := by
  refine ⟨?_, ?_, ?_, ?_, ?_, ?_⟩
  · intro admin treasury bps e
    unfold initProtocol
    repeat' split
    all_goals intro h
    all_goals first
      | exact ⟨rfl, rfl⟩
      | simp at h
  · intro admin treasury bps e
    unfold update_fee_config
    repeat' split
    all_goals intro h
    all_goals first
      | exact ⟨rfl, rfl⟩
      | simp at h
  · intro tokenOk sender recipient token_address amount duration now e
    unfold create_stream
    repeat' split
    all_goals intro h
    all_goals first
      | exact ⟨rfl, rfl⟩
      | simp at h
  · intro sender stream_id amount now e
    unfold top_up_stream
    repeat' split
    all_goals intro h
    all_goals first
      | exact ⟨rfl, rfl⟩
      | simp at h
  · intro recipient stream_id now e
    unfold withdraw
    repeat' split
    all_goals intro h
    all_goals first
      | exact ⟨rfl, rfl⟩
      | simp at h
  · intro sender stream_id now e
    unfold cancel_stream
    repeat' split
    all_goals intro h
    all_goals first
      | exact ⟨rfl, rfl⟩
      | simp at h

-- ── Claim C8 ───────────────────────────────────────────────────────────────

/-- C8: a successful top-up changes exactly two fields of the stream: the
deposited amount increases by the net (post-fee) amount and the last update
time becomes now; sender, recipient, token address, rate, withdrawn amount,
start time and activity flag are unchanged. -/
theorem top_up_stream_frame (s : State) (sender stream_id : Nat)
    (amount : Int) (now : Nat) (st : Stream)
    (hlook : lookupStream s.streams stream_id = some st)
    (hsend : st.sender = sender) (hact : st.is_active = true)
    (hamt : 0 < amount) :
    (top_up_stream s sender stream_id amount now).1 = .ok () ∧
    lookupStream (top_up_stream s sender stream_id amount now).2.1.streams
        stream_id =
      some { st with
              deposited_amount :=
                st.deposited_amount + (collect_fee s.config amount).1,
              last_update_time := now } := by
  have h1 : ¬ amount ≤ 0 := by omega
  have h2 : ¬ st.sender ≠ sender := by simp [hsend]
  have h3 : ¬ st.is_active = false := by simp [hact]
  unfold top_up_stream
  rw [if_neg h1, hlook]
  dsimp only
  rw [if_neg h2, if_neg h3]
  exact ⟨rfl, lookupStream_saveStream_self _ _ _⟩

set_option maxRecDepth 10000 in
/-- Witness for C8, matching the spec's Scenario C: topping up with 5000
and no fee raises the deposit from 100 to 5100, advances the update time to
9, and leaves every other field alone. -/
theorem top_up_stream_frame_witness :
    (top_up_stream ⟨none, [(1, ⟨1, 2, 3, 5, 100, 20, 0, 0, true⟩)], 2⟩
        1 1 5000 9).1 = .ok () ∧
    lookupStream
      (top_up_stream ⟨none, [(1, ⟨1, 2, 3, 5, 100, 20, 0, 0, true⟩)], 2⟩
        1 1 5000 9).2.1.streams 1 =
      some ⟨1, 2, 3, 5, 5100, 20, 0, 9, true⟩ :=
  top_up_stream_frame ⟨none, [(1, ⟨1, 2, 3, 5, 100, 20, 0, 0, true⟩)], 2⟩
    1 1 5000 9 ⟨1, 2, 3, 5, 100, 20, 0, 0, true⟩ (by decide) rfl rfl (by decide)

-- ── Withdraw characterizations ─────────────────────────────────────────────

theorem withdraw_success_eq (s : State) (recipient stream_id now : Nat)
    (st : Stream) (hlook : lookupStream s.streams stream_id = some st)
    (hrcp : st.recipient = recipient) (hact : st.is_active = true)
    (hc : ¬ calculate_claimable st now ≤ 0) :
    withdraw s recipient stream_id now =
      (.ok (calculate_claimable st now),
       { s with
          streams := saveStream s.streams stream_id
            (transfer_and_update_stream st recipient
              (calculate_claimable st now) now).1 },
       [(transfer_and_update_stream st recipient
          (calculate_claimable st now) now).2]) := by
  unfold withdraw
  rw [hlook]
  dsimp only
  rw [if_neg (by simp [hrcp]), if_neg (by simp [hact]), if_neg hc]

theorem withdraw_inactive_eq (s : State) (recipient stream_id now : Nat)
    (st : Stream) (hlook : lookupStream s.streams stream_id = some st)
    (hrcp : st.recipient = recipient) (hact : st.is_active = false) :
    withdraw s recipient stream_id now = (.error .StreamInactive, s, []) := by
  unfold withdraw
  rw [hlook]
  dsimp only
  rw [if_neg (by simp [hrcp]), if_pos hact]

theorem withdraw_invalid_amount_eq (s : State) (recipient stream_id now : Nat)
    (st : Stream) (hlook : lookupStream s.streams stream_id = some st)
    (hrcp : st.recipient = recipient) (hact : st.is_active = true)
    (hc : calculate_claimable st now ≤ 0) :
    withdraw s recipient stream_id now = (.error .InvalidAmount, s, []) := by
  unfold withdraw
  rw [hlook]
  dsimp only
  rw [if_neg (by simp [hrcp]), if_neg (by simp [hact]), if_pos hc]

-- ── Claim C9 ───────────────────────────────────────────────────────────────

set_option maxRecDepth 10000 in
/-- Counterexample to C9 as stated: on a stream of rate 10 with deposit 10,
the first withdraw at time 1 succeeds with 10 and fully drains the stream,
which the code auto-deactivates, so the immediately repeated withdraw fails
with `StreamInactive`, not `InvalidAmount`. -/
theorem withdraw_repeat_not_invalid_amount :
    (withdraw ⟨none, [(1, ⟨1, 2, 3, 10, 10, 0, 0, 0, true⟩)], 2⟩ 2 1 1).1
      = .ok 10 ∧
    (withdraw (withdraw ⟨none, [(1, ⟨1, 2, 3, 10, 10, 0, 0, 0, true⟩)], 2⟩
        2 1 1).2.1 2 1 1).1 = .error .StreamInactive := by
  constructor <;> decide

/-- C9 amended: if `withdraw` succeeds at time now, the immediately
repeated withdraw at the same time finds a claimable amount of 0 (the
elapsed time being zero) and leaves the stream and ledger unchanged with no
transfer; it fails with `InvalidAmount` when the first withdrawal did not
fully drain the stream, and with `StreamInactive` when it did (the stream
having been auto-deactivated by the first withdrawal). -/
theorem withdraw_repeat_amended (s : State) (recipient stream_id now : Nat)
    (st : Stream) (hlook : lookupStream s.streams stream_id = some st)
    (hrcp : st.recipient = recipient) (hact : st.is_active = true)
    (hw : 0 ≤ st.withdrawn_amount)
    (hwd : st.withdrawn_amount ≤ st.deposited_amount)
    (hd : st.deposited_amount ≤ i128Max)
    (hc : 0 < calculate_claimable st now) :
    (withdraw s recipient stream_id now).1 =
      .ok (calculate_claimable st now) ∧
    calculate_claimable
      (transfer_and_update_stream st recipient
        (calculate_claimable st now) now).1 now = 0 ∧
    (withdraw (withdraw s recipient stream_id now).2.1 recipient stream_id
        now).2.1 = (withdraw s recipient stream_id now).2.1 ∧
    (withdraw (withdraw s recipient stream_id now).2.1 recipient stream_id
        now).2.2 = [] ∧
    (st.withdrawn_amount + calculate_claimable st now < st.deposited_amount →
      (withdraw (withdraw s recipient stream_id now).2.1 recipient stream_id
        now).1 = .error .InvalidAmount) ∧
    (st.deposited_amount ≤ st.withdrawn_amount + calculate_claimable st now →
      (withdraw (withdraw s recipient stream_id now).2.1 recipient stream_id
        now).1 = .error .StreamInactive) := by
  have h4 : ¬ calculate_claimable st now ≤ 0 := by omega
  have hfirst := withdraw_success_eq s recipient stream_id now st hlook hrcp hact h4
  have hle := calculate_claimable_le_remaining st now
  have hsat : i128SatSub st.deposited_amount st.withdrawn_amount =
      st.deposited_amount - st.withdrawn_amount :=
    i128SatSub_eq (by omega) (by omega)
  have hwc : st.withdrawn_amount + calculate_claimable st now ≤
      st.deposited_amount := by omega
  have hclaim1 : calculate_claimable
      (transfer_and_update_stream st recipient
        (calculate_claimable st now) now).1 now = 0 := by
    apply calculate_claimable_zero_elapsed
    · show now ≤ now
      exact le_rfl
    · show st.withdrawn_amount + calculate_claimable st now ≤
        st.deposited_amount
      exact hwc
  have hlook1 : lookupStream (withdraw s recipient stream_id now).2.1.streams
      stream_id = some (transfer_and_update_stream st recipient
        (calculate_claimable st now) now).1 := by
    rw [hfirst]
    exact lookupStream_saveStream_self _ _ _
  have hsecond : withdraw (withdraw s recipient stream_id now).2.1 recipient
      stream_id now =
      (if st.deposited_amount ≤
          st.withdrawn_amount + calculate_claimable st now then
        ((.error .StreamInactive : Except StreamError Int),
         (withdraw s recipient stream_id now).2.1, ([] : List Transfer))
       else
        (.error .InvalidAmount,
         (withdraw s recipient stream_id now).2.1, [])) := by
    by_cases hfull : st.deposited_amount ≤
        st.withdrawn_amount + calculate_claimable st now
    · rw [if_pos hfull]
      refine withdraw_inactive_eq _ recipient stream_id now _ hlook1 hrcp ?_
      show (if st.deposited_amount ≤
          st.withdrawn_amount + calculate_claimable st now then false
        else st.is_active) = false
      rw [if_pos hfull]
    · rw [if_neg hfull]
      refine withdraw_invalid_amount_eq _ recipient stream_id now _ hlook1
        hrcp ?_ (le_of_eq hclaim1)
      show (if st.deposited_amount ≤
          st.withdrawn_amount + calculate_claimable st now then false
        else st.is_active) = true
      rw [if_neg hfull]
      exact hact
  refine ⟨by rw [hfirst], hclaim1, ?_, ?_, ?_, ?_⟩
  · rw [hsecond]
    split <;> rfl
  · rw [hsecond]
    split <;> rfl
  · intro hlt
    rw [hsecond, if_neg (by omega)]
  · intro hge
    rw [hsecond, if_pos hge]

set_option maxRecDepth 10000 in
/-- Witness for the amended C9 at a stream the first withdrawal does not
drain: the repeat finds claimable 0 and fails with `InvalidAmount`. -/
theorem withdraw_repeat_amended_witness :
    (withdraw ⟨none, [(1, ⟨1, 2, 3, 5, 100, 20, 0, 0, true⟩)], 2⟩ 2 1 4).1
      = .ok 20 ∧
    calculate_claimable
      (transfer_and_update_stream ⟨1, 2, 3, 5, 100, 20, 0, 0, true⟩ 2 20 4).1 4
      = 0 ∧
    (withdraw (withdraw ⟨none, [(1, ⟨1, 2, 3, 5, 100, 20, 0, 0, true⟩)], 2⟩
        2 1 4).2.1 2 1 4).2.1 =
      (withdraw ⟨none, [(1, ⟨1, 2, 3, 5, 100, 20, 0, 0, true⟩)], 2⟩ 2 1 4).2.1 ∧
    (withdraw (withdraw ⟨none, [(1, ⟨1, 2, 3, 5, 100, 20, 0, 0, true⟩)], 2⟩
        2 1 4).2.1 2 1 4).2.2 = [] ∧
    ((20 : Int) + 20 < 100 →
      (withdraw (withdraw ⟨none, [(1, ⟨1, 2, 3, 5, 100, 20, 0, 0, true⟩)], 2⟩
        2 1 4).2.1 2 1 4).1 = .error .InvalidAmount) ∧
    ((100 : Int) ≤ 20 + 20 →
      (withdraw (withdraw ⟨none, [(1, ⟨1, 2, 3, 5, 100, 20, 0, 0, true⟩)], 2⟩
        2 1 4).2.1 2 1 4).1 = .error .StreamInactive) :=
  withdraw_repeat_amended ⟨none, [(1, ⟨1, 2, 3, 5, 100, 20, 0, 0, true⟩)], 2⟩
    2 1 4 ⟨1, 2, 3, 5, 100, 20, 0, 0, true⟩ (by decide) rfl rfl
    (by decide) (by decide) (by decide) (by decide)

-- ── Claim C10 ──────────────────────────────────────────────────────────────

theorem i128CheckedMul_zero_right (a : Int) :
    (i128CheckedMul a 0).getD i128Max = 0 := by
  unfold i128CheckedMul
  norm_num [i128Min, i128Max]

theorem calculate_claimable_rate_zero {st : Stream}
    (h0 : st.rate_per_second = 0)
    (hwd : st.withdrawn_amount ≤ st.deposited_amount) (t : Nat) :
    calculate_claimable st t = 0 := by
  unfold calculate_claimable
  rw [h0, i128CheckedMul_zero_right]
  have := i128SatSub_nonneg hwd
  omega

theorem cancel_zero_accrued_eq (s : State) (sender stream_id now : Nat)
    (st : Stream) (hlook : lookupStream s.streams stream_id = some st)
    (hsend : st.sender = sender) (hact : st.is_active = true)
    (hacc : calculate_claimable st now = 0)
    (href : 0 < i128SatSub st.deposited_amount st.withdrawn_amount) :
    cancel_stream s sender stream_id now =
      (.ok (),
       { s with
          streams := saveStream s.streams stream_id
            { st with
                withdrawn_amount := st.withdrawn_amount,
                is_active := false,
                last_update_time := now } },
       [⟨contractAddress, sender,
         i128SatSub st.deposited_amount st.withdrawn_amount⟩]) := by
  have hwa : cancelWithdrawnAfter st now = st.withdrawn_amount := by
    unfold cancelWithdrawnAfter
    rw [if_neg (by omega)]
  have hrf : cancelRefund st now =
      i128SatSub st.deposited_amount st.withdrawn_amount := by
    unfold cancelRefund
    rw [hwa]
  unfold cancel_stream
  rw [hlook]
  dsimp only
  rw [if_neg (by simp [hsend]), if_neg (by simp [hact]), hwa, hrf,
      if_neg (by omega), if_pos href, List.nil_append]

/-- C10: a stream created with duration strictly greater than its net
deposit gets `rate_per_second = 0` (the truncating division yields 0); its
claimable amount is 0 at every time, every withdraw by the recipient fails
with `InvalidAmount` and changes nothing, and `cancel_stream` succeeds,
refunding the entire deposited amount to the sender (the recipient receives
nothing). -/
theorem zero_rate_stream_locked (s : State)
    (sender recipient token_address : Nat) (amount : Int) (duration now : Nat)
    (hcfg : configWF s.config) (hamt : 0 < amount) (hmax : amount ≤ i128Max)
    (hdur : duration ≠ 0)
    (hslow : (collect_fee s.config amount).1 < (duration : Int)) :
    (create_stream s true sender recipient token_address amount duration
      now).1 = .ok s.nextStreamId ∧
    lookupStream (create_stream s true sender recipient token_address amount
        duration now).2.1.streams s.nextStreamId =
      some ⟨sender, recipient, token_address, 0,
            (collect_fee s.config amount).1, 0, now, now, true⟩ ∧
    (∀ t, calculate_claimable ⟨sender, recipient, token_address, 0,
        (collect_fee s.config amount).1, 0, now, now, true⟩ t = 0) ∧
    (∀ t, withdraw (create_stream s true sender recipient token_address amount
        duration now).2.1 recipient s.nextStreamId t =
      (.error .InvalidAmount,
       (create_stream s true sender recipient token_address amount duration
         now).2.1, [])) ∧
    (∀ t, (cancel_stream (create_stream s true sender recipient token_address
        amount duration now).2.1 sender s.nextStreamId t).1 = .ok () ∧
      (cancel_stream (create_stream s true sender recipient token_address
        amount duration now).2.1 sender s.nextStreamId t).2.2 =
        [⟨contractAddress, sender, (collect_fee s.config amount).1⟩]) := by
  have hnet := collect_fee_pos hcfg hamt
  have hnetle : (collect_fee s.config amount).1 ≤ amount :=
    collect_fee_le (le_of_lt hamt)
  have hdd : (0 : Int) ≤ (duration : Int) := Int.natCast_nonneg _
  have hrate0 : Int.tdiv (collect_fee s.config amount).1 (duration : Int) = 0 := by
    rw [Int.tdiv_eq_ediv (le_of_lt hnet) hdd]
    exact Int.ediv_eq_zero_of_lt (le_of_lt hnet) hslow
  have hcreate : create_stream s true sender recipient token_address amount
      duration now =
      (.ok s.nextStreamId,
       { s with
          streams := saveStream s.streams s.nextStreamId
            ⟨sender, recipient, token_address, 0,
             (collect_fee s.config amount).1, 0, now, now, true⟩,
          nextStreamId := s.nextStreamId + 1 },
       ⟨sender, contractAddress, amount⟩ :: (collect_fee s.config amount).2) := by
    unfold create_stream
    rw [if_neg (by omega), if_neg hdur, if_neg (by simp)]
    dsimp only
    rw [hrate0]
  have hclaim0 : ∀ t, calculate_claimable ⟨sender, recipient, token_address, 0,
      (collect_fee s.config amount).1, 0, now, now, true⟩ t = 0 := fun t =>
    calculate_claimable_rate_zero rfl (le_of_lt hnet) t
  have hlookC : lookupStream (create_stream s true sender recipient
      token_address amount duration now).2.1.streams s.nextStreamId =
      some ⟨sender, recipient, token_address, 0,
            (collect_fee s.config amount).1, 0, now, now, true⟩ := by
    rw [hcreate]
    exact lookupStream_saveStream_self _ _ _
  have hsatnet : i128SatSub (collect_fee s.config amount).1 0
      = (collect_fee s.config amount).1 := by
    rw [i128SatSub_eq (by omega) (by omega)]
    omega
  refine ⟨by rw [hcreate], hlookC, hclaim0, ?_, ?_⟩
  · intro t
    exact withdraw_invalid_amount_eq _ recipient _ t _ hlookC rfl rfl
      (le_of_eq (hclaim0 t))
  · intro t
    have hcan := cancel_zero_accrued_eq _ sender s.nextStreamId t _ hlookC rfl
      rfl (hclaim0 t) (by rw [hsatnet]; exact hnet)
    constructor
    · rw [hcan]
    · rw [hcan]
      dsimp only
      rw [hsatnet]

set_option maxRecDepth 10000 in
/-- Witness for C10: creating a stream with net deposit 5 over duration 10
yields rate 0; no withdraw ever succeeds and cancelling refunds the full
deposit of 5 to the sender. -/
theorem zero_rate_stream_locked_witness :
    (create_stream initialState true 1 2 3 5 10 0).1 = .ok 1 ∧
    lookupStream (create_stream initialState true 1 2 3 5 10 0).2.1.streams 1 =
      some ⟨1, 2, 3, 0, 5, 0, 0, 0, true⟩ ∧
    (∀ t, calculate_claimable ⟨1, 2, 3, 0, 5, 0, 0, 0, true⟩ t = 0) ∧
    (∀ t, withdraw (create_stream initialState true 1 2 3 5 10 0).2.1 2 1 t =
      (.error .InvalidAmount,
       (create_stream initialState true 1 2 3 5 10 0).2.1, [])) ∧
    (∀ t, (cancel_stream (create_stream initialState true 1 2 3 5 10 0).2.1
        1 1 t).1 = .ok () ∧
      (cancel_stream (create_stream initialState true 1 2 3 5 10 0).2.1
        1 1 t).2.2 = [⟨0, 1, 5⟩]) :=
  zero_rate_stream_locked initialState 1 2 3 5 10 0 (by decide) (by decide)
    (by decide) (by decide) (by decide)

end FlowFi
